import Mathlib

/-!
Shallow embedding of `src/RTP-over-SRT/RTP-over-SRT.cpp`, a GStreamer-based
receiver that pulls an RTP stream out of an SRT session, demultiplexes it by
RTP payload type and dynamically attaches a consumption branch per payload
type.  Pure C functions become Lean functions; the side effects that matter to
the specification (log output, event-loop quit calls, the order of GStreamer
pad operations inside a probe callback) are reified as explicit result fields
or action traces.  The `rtpptdemux` GStreamer element itself is external to
the repository, so its per-payload-type protocol is modelled from the spec
(see `demux_step`); everything else is translated directly from the source.
-/

namespace RtpOverSrt

/-! ### Stream identity builder (`build_streamid`, lines 87-113)

The C function takes two nullable `gchar*` arguments and returns a nullable
`gchar*`; nullable C strings are embedded as `Option String`.  When both
arguments are NULL the local `streamid` is never assigned and the function
returns NULL (`none`), not the empty string. -/

def build_streamid (u r : Option String) : Option String :=
  let u_tag : Option String := u.map fun s => "u=" ++ s
  let r_tag : Option String := r.map fun s => "r=" ++ s
  if u.isSome || r.isSome then
    some ("#!::" ++ u_tag.getD "" ++
      (if u.isSome && r.isSome then "," else "") ++ r_tag.getD "")
  else
    none

/-! ### Payload type resolver (`_request_pt_map_cb`, lines 131-152)

The callback returns a `GstCaps*` built from a literal caps string, or NULL
for an unmapped payload type after printing a log line.  Caps are embedded as
their source string; the log output is reified in the result. -/

def h264_caps : String :=
  "application/x-rtp, encoding-name=(string)H264, media=(string)video, clock-rate=(int)90000"

def xgst_caps : String :=
  "application/x-rtp, encoding-name=(string)X-GST, media=(string)application, clock-rate=(int)90000"

structure PtMapResult where
  caps : Option String
  log : List String
deriving DecidableEq, Repr

def _request_pt_map_cb (pt : Nat) : PtMapResult :=
  if pt = 96 then
    { caps := some h264_caps, log := [] }
  else if pt = 99 then
    { caps := some xgst_caps, log := [] }
  else
    { caps := none, log := ["wrong! pt"] }

/-! ### Bus watch (`_bus_watch`, lines 115-129)

EOS and ERROR messages both print "Terminated" and quit the main loop; every
other message type does nothing.  The callback always returns
G_SOURCE_CONTINUE. -/

inductive GstMessageType
  | eos
  | error
  | other
deriving DecidableEq, Repr

structure BusWatchEffect where
  printed : List String
  quitCalls : Nat
  sourceContinue : Bool
deriving DecidableEq, Repr

def _bus_watch : GstMessageType → BusWatchEffect
  | .eos => { printed := ["Terminated"], quitCalls := 1, sourceContinue := true }
  | .error => { printed := ["Terminated"], quitCalls := 1, sourceContinue := true }
  | .other => { printed := [], quitCalls := 0, sourceContinue := true }

/-! ### Teardown after the event loop returns (`main`, lines 334-343)

After `g_main_loop_run` returns, `main` sets the pipeline state to NULL,
unrefs the pipeline, unrefs the loop, and returns 0. -/

inductive TeardownAction
  | setStateNull
  | unrefPipeline
  | unrefLoop
deriving DecidableEq, Repr

def main_teardown : List TeardownAction :=
  [.setStateNull, .unrefPipeline, .unrefLoop]

def main_run_exit_code : Int := 0

/-! ### Branch-splicing pad-probe callbacks (`_link_cb` lines 154-195,
`_link_gstdepay_cb` lines 197-229)

Each idle-probe callback performs a fixed sequence of GStreamer calls; the
sequence is reified as a trace of `PadAction`s, parameterised by the outcome
of `gst_pad_link`.  In `_link_cb` a failed link hits `g_error`, which aborts
the process, so nothing after it runs.  In `_link_gstdepay_cb` the result of
`gst_pad_link` is not inspected, so the trace is the same for both outcomes;
note that there `gst_element_sync_state_with_parent` runs before the ghost
pad is created and linked. -/

inductive PadAction
  | parseLaunchBranch
  | binAdd
  | getFirstByName
  | getSinkPad
  | newGhostPad
  | addGhostPad
  | linkPad
  | setActive
  | syncStateWithParent
  | fatalError
deriving DecidableEq, Repr

inductive GstPadLinkReturn
  | ok
  | failed
deriving DecidableEq, Repr

def _link_cb (link : GstPadLinkReturn) : List PadAction :=
  [.parseLaunchBranch, .binAdd, .getFirstByName, .getSinkPad,
   .newGhostPad, .addGhostPad, .linkPad] ++
  match link with
  | .failed => [.fatalError]
  | .ok => [.setActive, .syncStateWithParent]

def _link_gstdepay_cb (_link : GstPadLinkReturn) : List PadAction :=
  [.parseLaunchBranch, .binAdd, .getFirstByName, .getSinkPad,
   .syncStateWithParent, .newGhostPad, .addGhostPad, .setActive, .linkPad]

/-! ### Branch element sequences

The element chains of the two `gst_parse_launch` descriptions inside the
probe callbacks, element properties elided. -/

def video_branch_elements : List String :=
  ["queue", "rtph264depay", "h264parse", "decodebin", "autovideosink"]

def gstdepay_branch_elements : List String :=
  ["queue", "rtpgstdepay", "identity", "fakesink"]

inductive BranchKind
  | video
  | appdata
deriving DecidableEq, Repr

def branch_elements : BranchKind → List String
  | .video => video_branch_elements
  | .appdata => gstdepay_branch_elements

/-! ### New-payload-type handler (`_new_payload_type_cb`, lines 232-247)

For pt 96 it schedules `_link_cb` (the video branch) as an idle probe on the
new pad, for pt 99 it schedules `_link_gstdepay_cb` (the application-data
branch), and for any other pt it does nothing. -/

def _new_payload_type_cb (pt : Nat) : Option BranchKind :=
  if pt = 96 then some .video
  else if pt = 99 then some .appdata
  else none

/-! ### Stream demultiplexer -/

/-- True when `_request_pt_map_cb` resolves `pt` to a caps descriptor. -/
def pt_mapped (pt : Nat) : Bool :=
  (_request_pt_map_cb pt).caps.isSome

structure DemuxState where
  /-- Payload-type ids with a created output port, in creation order. -/
  ports : List Nat
  /-- Payload-type ids for which a new-payload-type attachment event was
  raised (one entry per invocation of the attachment handler). -/
  events : List Nat
  /-- Branches spliced in by the attachment handler, keyed by pt. -/
  branches : List (Nat × BranchKind)
  /-- Log lines printed so far. -/
  logs : List String
  /-- Payload-type ids of packets forwarded to a port, in arrival order. -/
  delivered : List Nat
deriving DecidableEq, Repr

/-- Modelled from the spec: the `rtpptdemux` element that classifies packets
by payload type is external GStreamer code, not part of this repository.
Section 4.3 of the spec gives its protocol: a packet whose pt already has a
port is forwarded to that port; a packet with a previously unseen pt triggers
a synchronous consultation of the resolver (`_request_pt_map_cb`, from the
source), and on success a port is created and the attachment event is raised
exactly once — here the event immediately runs the repository's
`_new_payload_type_cb`, recording the branch it splices in — while on failure
the packet is discarded with no port and no event.  An arbitrary arrival
order of packets is a `List Nat` of payload-type ids. -/
def demux_step (s : DemuxState) (pt : Nat) : DemuxState :=
  if pt ∈ s.ports then
    { s with delivered := s.delivered ++ [pt] }
  else
    match (_request_pt_map_cb pt).caps with
    | some _ =>
      { ports := s.ports ++ [pt]
        events := s.events ++ [pt]
        branches := s.branches ++ ((_new_payload_type_cb pt).map fun k => (pt, k)).toList
        logs := s.logs ++ (_request_pt_map_cb pt).log
        delivered := s.delivered ++ [pt] }
    | none =>
      { s with logs := s.logs ++ (_request_pt_map_cb pt).log }

def demux_init : DemuxState :=
  { ports := [], events := [], branches := [], logs := [], delivered := [] }

def demux_run_from (s : DemuxState) (stream : List Nat) : DemuxState :=
  stream.foldl demux_step s

def demux_run (stream : List Nat) : DemuxState :=
  demux_run_from demux_init stream

/-- The observable fields of a demux state: everything except the log. -/
def DemuxState.obs (s : DemuxState) :
    List Nat × List Nat × List (Nat × BranchKind) × List Nat :=
  (s.ports, s.events, s.branches, s.delivered)

/-! ### Command-line argument handling (`_parse_rest_arg_cb` lines 68-85,
`main` lines 280-343)

`options` is the global options struct; `_parse_rest_arg_cb` is the
G_OPTION_REMAINING callback invoked once per positional argument, in order.
It rejects a second positional (checking `options.uri != NULL` first, before
looking at the new value), rejects a value without the "srt://" scheme, and
otherwise stores the value.  On a FALSE return, option parsing stops with an
error and `main` prints the message and returns -1; `main` also returns -1
when `--help` was given or no URI was collected, printing the usage text.
Only after these checks does `main` build and run the pipeline. -/

structure Options where
  uri : Option String
  user : Option String
  resource : Option String
deriving DecidableEq, Repr

/-- Embedding of the `g_str_has_prefix (value, "srt://")` test, computed on
the character sequence of the string. -/
def has_srt_scheme (value : String) : Bool :=
  ("srt://").toList.isPrefixOf value.toList

def _parse_rest_arg_cb (opts : Options) (value : String) :
    Except String Options :=
  if opts.uri.isSome then
    .error "URI has already been set."
  else if !has_srt_scheme value then
    .error ("Invalid SRT uri: " ++ value)
  else
    .ok { opts with uri := some value }

/-- Folds `_parse_rest_arg_cb` over the positional arguments in order,
stopping at the first failure.  Returns the options as they stand at the end
(the C callback leaves the global struct untouched on failure) together with
the error message, if any. -/
def parse_positionals : Options → List String → Options × Option String
  | opts, [] => (opts, none)
  | opts, v :: rest =>
    match _parse_rest_arg_cb opts v with
    | .error e => (opts, some e)
    | .ok o => parse_positionals o rest

inductive MainResult
  /-- `main` returned `code` before `gst_init`/`build_recv_pipeline` ran,
  after printing `printed`. -/
  | earlyExit (code : Int) (printed : List String)
  /-- `main` reached pipeline construction with this URI and stream id. -/
  | runPipeline (uri : String) (streamid : Option String)
deriving DecidableEq, Repr

def main_startup (help : Bool) (user resource : Option String)
    (positionals : List String) : MainResult :=
  match parse_positionals { uri := none, user := user, resource := resource } positionals with
  | (_, some e) => .earlyExit (-1) [e]
  | (opts, none) =>
    if help || opts.uri.isNone then
      .earlyExit (-1) ["<usage text>"]
    else
      .runPipeline (opts.uri.getD "") (build_streamid opts.user opts.resource)

/-! ### Spec-side branch stage sequences (for the refinement claim C6)

The spec (section 4.4) describes each branch as a sequence of abstract
stages.  `stage_elements` is the refinement map from an abstract stage to the
concrete pipeline elements realizing it; the application-data consumption
sink, which the spec glosses as "a data-dump", is realized by the pair of
elements identity (with dump=true) and fakesink. -/

inductive Stage
  | bufferingQueue
  | rtpDepacketizer
  | formatParser
  | decoder
  | displaySink
  | genericRtpDepacketizer
  | consumptionSink
deriving DecidableEq, Repr

def stage_elements : Stage → List String
  | .bufferingQueue => ["queue"]
  | .rtpDepacketizer => ["rtph264depay"]
  | .formatParser => ["h264parse"]
  | .decoder => ["decodebin"]
  | .displaySink => ["autovideosink"]
  | .genericRtpDepacketizer => ["rtpgstdepay"]
  | .consumptionSink => ["identity", "fakesink"]

def spec_video_stages : List Stage :=
  [.bufferingQueue, .rtpDepacketizer, .formatParser, .decoder, .displaySink]

def spec_appdata_stages : List Stage :=
  [.bufferingQueue, .genericRtpDepacketizer, .consumptionSink]

/-! ### Invariants of the demultiplexer state machine -/

/-- The run invariant of the demux machine: attachment events coincide with
port creations, ports are pairwise distinct, only resolver-mapped ids own a
port, each branch comes from the attachment handler applied to its own port
id, and only mapped ids are ever delivered. -/
def DemuxInv (s : DemuxState) : Prop :=
  s.events = s.ports ∧
  s.ports.Nodup ∧
  (∀ p ∈ s.ports, pt_mapped p = true) ∧
  s.branches.map Prod.fst = s.ports.filter (fun p => (_new_payload_type_cb p).isSome) ∧
  (∀ b ∈ s.branches, _new_payload_type_cb b.1 = some b.2) ∧
  (∀ q ∈ s.delivered, pt_mapped q = true)

theorem demux_init_inv : DemuxInv demux_init := by
  simp [DemuxInv, demux_init]

theorem _request_pt_map_cb_unmapped (q : Nat) (h : pt_mapped q = false) :
    _request_pt_map_cb q = { caps := none, log := ["wrong! pt"] } := by
  unfold pt_mapped _request_pt_map_cb at *
  by_cases h96 : q = 96 <;> by_cases h99 : q = 99 <;> simp_all

theorem demux_step_ports (s : DemuxState) (q : Nat) :
    (demux_step s q).ports =
      if q ∈ s.ports ∨ pt_mapped q = false then s.ports else s.ports ++ [q] := by
  unfold demux_step pt_mapped
  by_cases hq : q ∈ s.ports
  · simp [hq]
  · rcases hc : (_request_pt_map_cb q).caps with _ | c <;> simp [hq, hc]

theorem demux_step_inv (s : DemuxState) (pt : Nat) (h : DemuxInv s) :
    DemuxInv (demux_step s pt) := by
  obtain ⟨h1, h2, h3, h4, h5, h6⟩ := h
  unfold demux_step
  by_cases hp : pt ∈ s.ports
  · simp only [if_pos hp]
    refine ⟨h1, h2, h3, h4, h5, ?_⟩
    intro q hq
    rcases List.mem_append.mp hq with hq | hq
    · exact h6 q hq
    · simp only [List.mem_singleton] at hq
      subst hq
      exact h3 _ hp
  · simp only [if_neg hp]
    rcases hc : (_request_pt_map_cb pt).caps with _ | c
    · exact ⟨h1, h2, h3, h4, h5, h6⟩
    · have hm : pt_mapped pt = true := by
        unfold pt_mapped
        rw [hc]
        rfl
      refine ⟨by rw [h1], ?_, ?_, ?_, ?_, ?_⟩
      · exact List.Nodup.append h2 (List.nodup_singleton pt)
          (List.disjoint_singleton.mpr hp)
      · intro p hmem
        rcases List.mem_append.mp hmem with hmem | hmem
        · exact h3 p hmem
        · simp only [List.mem_singleton] at hmem
          subst hmem
          exact hm
      · rw [List.map_append, h4, List.filter_append]
        rcases hn : _new_payload_type_cb pt with _ | k <;> simp [hn]
      · intro b hb
        rcases List.mem_append.mp hb with hb | hb
        · exact h5 b hb
        · rcases hn : _new_payload_type_cb pt with _ | k <;> simp [hn] at hb
          rw [hb]
          simp [hn]
      · intro q hq
        rcases List.mem_append.mp hq with hq | hq
        · exact h6 q hq
        · simp only [List.mem_singleton] at hq
          subst hq
          exact hm

theorem demux_run_from_inv (stream : List Nat) (s : DemuxState)
    (h : DemuxInv s) : DemuxInv (demux_run_from s stream) := by
  induction stream generalizing s with
  | nil => exact h
  | cons q rest ih => exact ih (demux_step s q) (demux_step_inv s q h)

theorem demux_run_inv (stream : List Nat) : DemuxInv (demux_run stream) :=
  demux_run_from_inv stream demux_init demux_init_inv

theorem demux_step_ports_mapped (s : DemuxState) (q : Nat)
    (h : ∀ p ∈ s.ports, pt_mapped p = true) :
    ∀ p ∈ (demux_step s q).ports, pt_mapped p = true := by
  intro p hp
  rw [demux_step_ports] at hp
  by_cases hc : q ∈ s.ports ∨ pt_mapped q = false
  · rw [if_pos hc] at hp
    exact h p hp
  · rw [if_neg hc] at hp
    rcases List.mem_append.mp hp with hp | hp
    · exact h p hp
    · simp only [List.mem_singleton] at hp
      subst hp
      push_neg at hc
      simpa using hc.2

theorem demux_run_from_mem_ports (stream : List Nat) (s : DemuxState)
    (h : ∀ p ∈ s.ports, pt_mapped p = true) (pt : Nat) :
    pt ∈ (demux_run_from s stream).ports ↔
      pt ∈ s.ports ∨ (pt ∈ stream ∧ pt_mapped pt = true) := by
  induction stream generalizing s with
  | nil => simp [demux_run_from]
  | cons q rest ih =>
    have hstep : demux_run_from s (q :: rest) = demux_run_from (demux_step s q) rest := rfl
    rw [hstep, ih (demux_step s q) (demux_step_ports_mapped s q h)]
    rw [demux_step_ports]
    by_cases hc : q ∈ s.ports ∨ pt_mapped q = false
    · rw [if_pos hc]
      constructor
      · rintro (hmem | ⟨hmem, hmap⟩)
        · exact Or.inl hmem
        · exact Or.inr ⟨List.mem_cons_of_mem q hmem, hmap⟩
      · rintro (hmem | ⟨hmem, hmap⟩)
        · exact Or.inl hmem
        · rcases List.mem_cons.mp hmem with hqq | hmem
          · subst hqq
            rcases hc with hc | hc
            · exact Or.inl hc
            · rw [hmap] at hc
              cases hc
          · exact Or.inr ⟨hmem, hmap⟩
    · rw [if_neg hc]
      push_neg at hc
      have hqm : pt_mapped q = true := by simpa using hc.2
      constructor
      · rintro (hmem | ⟨hmem, hmap⟩)
        · rcases List.mem_append.mp hmem with hmem | hmem
          · exact Or.inl hmem
          · simp only [List.mem_singleton] at hmem
            subst hmem
            exact Or.inr ⟨List.mem_cons_self pt rest, hqm⟩
        · exact Or.inr ⟨List.mem_cons_of_mem q hmem, hmap⟩
      · rintro (hmem | ⟨hmem, hmap⟩)
        · exact Or.inl (List.mem_append_left _ hmem)
        · rcases List.mem_cons.mp hmem with hqq | hmem
          · subst hqq
            exact Or.inl (List.mem_append_right _ (List.mem_singleton_self pt))
          · exact Or.inr ⟨hmem, hmap⟩

theorem demux_step_logs_mono (s : DemuxState) (q : Nat) (x : String)
    (h : x ∈ s.logs) : x ∈ (demux_step s q).logs := by
  unfold demux_step
  by_cases hq : q ∈ s.ports
  · simpa [hq] using h
  · rcases hc : (_request_pt_map_cb q).caps with _ | c <;>
      simp [hq, hc] <;> exact Or.inl h

theorem demux_run_from_logs_mono (stream : List Nat) (s : DemuxState)
    (x : String) (h : x ∈ s.logs) : x ∈ (demux_run_from s stream).logs := by
  induction stream generalizing s with
  | nil => exact h
  | cons q rest ih => exact ih (demux_step s q) (demux_step_logs_mono s q x h)

theorem demux_run_from_log_unmapped (stream : List Nat) (s : DemuxState)
    (pt : Nat) (hm : pt_mapped pt = false)
    (hp : ∀ p ∈ s.ports, pt_mapped p = true) (hmem : pt ∈ stream) :
    "wrong! pt" ∈ (demux_run_from s stream).logs := by
  induction stream generalizing s with
  | nil => cases hmem
  | cons q rest ih =>
    have hstep : demux_run_from s (q :: rest) = demux_run_from (demux_step s q) rest := rfl
    rw [hstep]
    rcases List.mem_cons.mp hmem with hq | hmem
    · subst hq
      have hnp : pt ∉ s.ports := fun hc => by
        rw [hp pt hc] at hm
        cases hm
      have hlog : "wrong! pt" ∈ (demux_step s pt).logs := by
        unfold demux_step
        rw [if_neg hnp, _request_pt_map_cb_unmapped pt hm]
        simp
      exact demux_run_from_logs_mono rest (demux_step s pt) _ hlog
    · exact ih (demux_step s q) (demux_step_ports_mapped s q hp) hmem

theorem demux_step_obs_congr (s t : DemuxState) (q : Nat)
    (h : s.obs = t.obs) : (demux_step s q).obs = (demux_step t q).obs := by
  obtain ⟨sp, se, sb, sl, sd⟩ := s
  obtain ⟨tp, te, tb, tl, td⟩ := t
  simp only [DemuxState.obs, Prod.mk.injEq] at h
  obtain ⟨hp, he, hb, hd⟩ := h
  subst hp he hb hd
  unfold demux_step
  by_cases hq : q ∈ sp
  · simp [hq, DemuxState.obs]
  · rcases hc : (_request_pt_map_cb q).caps with _ | c <;>
      simp [hq, hc, DemuxState.obs]

theorem demux_run_from_obs_congr (stream : List Nat) (s t : DemuxState)
    (h : s.obs = t.obs) :
    (demux_run_from s stream).obs = (demux_run_from t stream).obs := by
  induction stream generalizing s t with
  | nil => exact h
  | cons q rest ih => exact ih (demux_step s q) (demux_step t q) (demux_step_obs_congr s t q h)

theorem demux_run_from_filter_obs (stream : List Nat) (s : DemuxState)
    (h : ∀ p ∈ s.ports, pt_mapped p = true) :
    (demux_run_from s (stream.filter (fun q => pt_mapped q))).obs =
      (demux_run_from s stream).obs := by
  induction stream generalizing s with
  | nil => rfl
  | cons q rest ih =>
    by_cases hm : pt_mapped q
    · have hfil : (q :: rest).filter (fun x => pt_mapped x) =
          q :: rest.filter (fun x => pt_mapped x) := by
        simp [List.filter_cons, hm]
      rw [hfil]
      exact ih (demux_step s q) (demux_step_ports_mapped s q h)
    · have hfil : (q :: rest).filter (fun x => pt_mapped x) =
          rest.filter (fun x => pt_mapped x) := by
        simp [List.filter_cons, hm]
      rw [hfil]
      have hnq : q ∉ s.ports := fun hc => hm (h q hc)
      have hobs : s.obs = (demux_step s q).obs := by
        unfold demux_step
        rw [if_neg hnq, _request_pt_map_cb_unmapped q (by simpa using hm)]
        simp [DemuxState.obs]
      calc (demux_run_from s (rest.filter (fun x => pt_mapped x))).obs
          = (demux_run_from s rest).obs := ih s h
        _ = (demux_run_from (demux_step s q) rest).obs :=
            demux_run_from_obs_congr rest s (demux_step s q) hobs

/-! ### Lemmas about positional argument parsing -/

theorem _parse_rest_arg_cb_ok (opts o : Options) (v : String)
    (h : _parse_rest_arg_cb opts v = .ok o) :
    opts.uri = none ∧ has_srt_scheme v = true ∧ o = { opts with uri := some v } := by
  unfold _parse_rest_arg_cb at h
  by_cases hu : opts.uri.isSome
  · simp [hu] at h
  · by_cases hs : has_srt_scheme v <;> simp [hu, hs] at h
    exact ⟨Option.not_isSome_iff_eq_none.mp hu, hs, h.symm⟩

theorem parse_positionals_error_of_invalid (ps : List String) (opts : Options)
    (h : ∃ p ∈ ps, has_srt_scheme p = false) :
    (parse_positionals opts ps).2.isSome := by
  induction ps generalizing opts with
  | nil => simp at h
  | cons v rest ih =>
    obtain ⟨p, hp, hbad⟩ := h
    unfold parse_positionals
    rcases hcb : _parse_rest_arg_cb opts v with e | o
    · simp
    · rcases List.mem_cons.mp hp with hpv | hpr
      · subst hpv
        rw [(_parse_rest_arg_cb_ok opts o p hcb).2.1] at hbad
        cases hbad
      · exact ih o ⟨p, hpr, hbad⟩

/-! ### Claim theorems -/

/-- C1: for every packet arrival sequence and every payload-type id, the
demultiplexer run creates at most one output port, raises at most one
attachment event and splices at most one Branch for that id, and the
attachment handler is invoked exactly once for an id precisely when a packet
of that id arrives and the resolver maps it; repeated packets of an
already-seen id never produce a second attachment event, port or branch. -/
theorem demux_attachment_idempotent (stream : List Nat) (pt : Nat) :
    (demux_run stream).events.count pt ≤ 1 ∧
    (demux_run stream).ports.count pt ≤ 1 ∧
    ((demux_run stream).branches.map Prod.fst).count pt ≤ 1 ∧
    ((demux_run stream).events.count pt = 1 ↔
      pt ∈ stream ∧ pt_mapped pt = true) := by
  obtain ⟨h1, h2, h3, h4, h5, h6⟩ := demux_run_inv stream
  have hports : (demux_run stream).ports.count pt ≤ 1 :=
    List.nodup_iff_count_le_one.mp h2 pt
  have hevents : (demux_run stream).events.count pt ≤ 1 := by
    rw [h1]
    exact hports
  have hbn : ((demux_run stream).branches.map Prod.fst).Nodup := by
    rw [h4]
    exact h2.filter _
  refine ⟨hevents, hports, List.nodup_iff_count_le_one.mp hbn pt, ?_⟩
  have hmem : pt ∈ (demux_run stream).ports ↔
      pt ∈ stream ∧ pt_mapped pt = true := by
    have hmp := demux_run_from_mem_ports stream demux_init (by simp [demux_init]) pt
    simpa [demux_run, demux_init] using hmp
  rw [h1]
  constructor
  · intro hcount
    exact hmem.mp (List.count_pos_iff.mp (by omega))
  · intro hst
    have hpos : 0 < (demux_run stream).ports.count pt :=
      List.count_pos_iff.mpr (hmem.mpr hst)
    omega

/-- C2 counterexample: in the application-data splicing callback
`_link_gstdepay_cb` the branch state is synchronized to the pipeline before
the ghost pad is linked onto the demultiplexer output, so the claim that both
branches link first and synchronize only after linking is false. -/
theorem appdata_sync_precedes_link :
    ¬ (List.indexOf PadAction.linkPad (_link_gstdepay_cb .ok) <
        List.indexOf PadAction.syncStateWithParent (_link_gstdepay_cb .ok)) := by
  decide

/-- C2 amended: the video branch (`_link_cb`, pt 96) constructs and links
and only afterwards synchronizes its state; the application-data branch
(`_link_gstdepay_cb`, pt 99) constructs the sub-graph, synchronizes its state
to the pipeline, and only then creates and links the ghost pad onto the
port.  Delivery resumes after the probe callback returns in both cases. -/
theorem splice_link_sync_order :
    (List.indexOf PadAction.linkPad (_link_cb .ok) <
      List.indexOf PadAction.syncStateWithParent (_link_cb .ok)) ∧
    (List.indexOf PadAction.parseLaunchBranch (_link_gstdepay_cb .ok) <
      List.indexOf PadAction.syncStateWithParent (_link_gstdepay_cb .ok)) ∧
    (List.indexOf PadAction.syncStateWithParent (_link_gstdepay_cb .ok) <
      List.indexOf PadAction.linkPad (_link_gstdepay_cb .ok)) := by
  decide

/-- C3 counterexample: with both credentials absent `build_streamid` returns
the absent identity (a NULL string), not the empty string. -/
theorem build_streamid_absent_not_empty :
    build_streamid none none ≠ some "" := by
  decide

/-- C3 amended: the identity-token builder returns no token (NULL) when both
inputs are absent; "#!::u=<user>" for user only; "#!::r=<resource>" for
resource only; and "#!::u=<user>,r=<resource>" when both are present.  It is
a total pure function. -/
theorem build_streamid_cases (u r : String) :
    build_streamid none none = none ∧
    build_streamid (some u) none = some ("#!::u=" ++ u) ∧
    build_streamid none (some r) = some ("#!::r=" ++ r) ∧
    build_streamid (some u) (some r) = some ("#!::u=" ++ u ++ ",r=" ++ r) := by
  refine ⟨rfl, ?_, ?_, ?_⟩
  · show some ("#!::" ++ ("u=" ++ u) ++ "" ++ "") = some ("#!::u=" ++ u)
    exact congrArg some (by apply String.ext; simp [String.data_append])
  · show some ("#!::" ++ "" ++ "" ++ ("r=" ++ r)) = some ("#!::r=" ++ r)
    exact congrArg some (by apply String.ext; simp [String.data_append])
  · show some ("#!::" ++ ("u=" ++ u) ++ "," ++ ("r=" ++ r)) =
        some ("#!::u=" ++ u ++ ",r=" ++ r)
    exact congrArg some (by apply String.ext; simp [String.data_append])

/-- C4: the payload type resolver yields the H.264 video caps exactly for
pt 96, the generic application-data caps exactly for pt 99, and for every
other pt yields no caps and prints the "wrong! pt" log line. -/
theorem request_pt_map_exact (pt : Nat) :
    ((_request_pt_map_cb pt).caps = some h264_caps ↔ pt = 96) ∧
    ((_request_pt_map_cb pt).caps = some xgst_caps ↔ pt = 99) ∧
    ((_request_pt_map_cb pt).caps = none ↔ ¬(pt = 96 ∨ pt = 99)) ∧
    ((_request_pt_map_cb pt).log = ["wrong! pt"] ↔ ¬(pt = 96 ∨ pt = 99)) := by
  have hne : h264_caps ≠ xgst_caps := by decide
  have hne' : xgst_caps ≠ h264_caps := fun hc => hne hc.symm
  by_cases h96 : pt = 96 <;> by_cases h99 : pt = 99 <;>
    simp_all [_request_pt_map_cb]

/-- C5: an unmapped payload type (anything other than 96 and 99) never gets
a port, an attachment event, a branch or a delivery; its arrival is logged
with "wrong! pt"; and dropping all unmapped packets from the arrival
sequence leaves the observable outcome of the run unchanged. -/
theorem unmapped_pt_isolation (stream : List Nat) (pt : Nat)
    (h : pt_mapped pt = false) :
    pt ∉ (demux_run stream).ports ∧
    pt ∉ (demux_run stream).events ∧
    pt ∉ (demux_run stream).branches.map Prod.fst ∧
    pt ∉ (demux_run stream).delivered ∧
    (pt ∈ stream → "wrong! pt" ∈ (demux_run stream).logs) ∧
    (demux_run (stream.filter (fun q => pt_mapped q))).obs =
      (demux_run stream).obs := by
  obtain ⟨h1, h2, h3, h4, h5, h6⟩ := demux_run_inv stream
  have hnp : pt ∉ (demux_run stream).ports := fun hc => by
    rw [h3 pt hc] at h
    cases h
  refine ⟨hnp, ?_, ?_, ?_, ?_, ?_⟩
  · rw [h1]
    exact hnp
  · rw [h4]
    intro hc
    exact hnp (List.mem_of_mem_filter hc)
  · intro hc
    rw [h6 pt hc] at h
    cases h
  · intro hmem
    exact demux_run_from_log_unmapped stream demux_init pt h (by simp [demux_init]) hmem
  · exact demux_run_from_filter_obs stream demux_init (by simp [demux_init])

/-- C5 witness at the unmapped id 97 inside the stream 97, 96, 97, 99. -/
theorem unmapped_pt_isolation_witness :
    97 ∉ (demux_run [97, 96, 97, 99]).ports ∧
    97 ∉ (demux_run [97, 96, 97, 99]).events ∧
    97 ∉ (demux_run [97, 96, 97, 99]).branches.map Prod.fst ∧
    97 ∉ (demux_run [97, 96, 97, 99]).delivered ∧
    (97 ∈ [97, 96, 97, 99] → "wrong! pt" ∈ (demux_run [97, 96, 97, 99]).logs) ∧
    (demux_run ([97, 96, 97, 99].filter (fun q => pt_mapped q))).obs =
      (demux_run [97, 96, 97, 99]).obs :=
  unmapped_pt_isolation [97, 96, 97, 99] 97 (by decide)

/-- C6: the branch builder produces exactly the stage sequence of the
attachment event's media kind: for pt 96 the video chain queue,
rtph264depay, h264parse, decodebin, autovideosink realizing the spec's
buffering queue, RTP depacketizer, format parser, decoder and display sink;
for pt 99 the chain queue, rtpgstdepay, identity, fakesink realizing the
spec's buffering queue, generic RTP depacketizer and data-dump consumption
sink; and no payload type other than 96 and 99 ever reaches the builder. -/
theorem branch_builder_stage_sequences :
    branch_elements .video = (spec_video_stages.map stage_elements).flatten ∧
    branch_elements .appdata = (spec_appdata_stages.map stage_elements).flatten ∧
    (∀ pt k, _new_payload_type_cb pt = some k →
      (pt = 96 ∧ k = BranchKind.video) ∨ (pt = 99 ∧ k = BranchKind.appdata)) ∧
    (∀ stream, ∀ b ∈ (demux_run stream).branches,
      (b.1 = 96 ∧ b.2 = BranchKind.video) ∨ (b.1 = 99 ∧ b.2 = BranchKind.appdata)) := by
  have hcb : ∀ pt k, _new_payload_type_cb pt = some k →
      (pt = 96 ∧ k = BranchKind.video) ∨ (pt = 99 ∧ k = BranchKind.appdata) := by
    intro pt k hk
    by_cases h96 : pt = 96 <;> by_cases h99 : pt = 99 <;>
      simp_all [_new_payload_type_cb]
  refine ⟨rfl, rfl, hcb, ?_⟩
  intro stream b hb
  obtain ⟨h1, h2, h3, h4, h5, h6⟩ := demux_run_inv stream
  exact hcb b.1 b.2 (h5 b hb)

/-- C6 witness: the handler resolves pt 96 to the video branch, and the run
on the stream 96, 99 splices the application-data branch at pt 99. -/
theorem branch_builder_stage_sequences_witness :
    ((96 = 96 ∧ BranchKind.video = BranchKind.video) ∨
      (96 = 99 ∧ BranchKind.video = BranchKind.appdata)) ∧
    ((((99 : Nat), BranchKind.appdata).1 = 96 ∧
        ((99 : Nat), BranchKind.appdata).2 = BranchKind.video) ∨
      (((99 : Nat), BranchKind.appdata).1 = 99 ∧
        ((99 : Nat), BranchKind.appdata).2 = BranchKind.appdata)) :=
  ⟨branch_builder_stage_sequences.2.2.1 96 BranchKind.video (by decide),
   branch_builder_stage_sequences.2.2.2 [96, 99] (99, BranchKind.appdata) (by decide)⟩

/-- C7 counterexample: in the application-data splicing callback the result
of the pad link is never inspected, so a failed link does not reach the
fatal-error path. -/
theorem appdata_link_failure_not_fatal :
    PadAction.fatalError ∉ _link_gstdepay_cb .failed := by
  decide

/-- C7 amended: a failure to link the video branch onto its port is fatal
(`g_error` aborts, and nothing in the callback runs after it), while in the
application-data branch the pad-link return value is ignored, so a link
failure there is silently ignored and never signalled. -/
theorem link_failure_fatality :
    PadAction.fatalError ∈ _link_cb .failed ∧
    (_link_cb .failed).getLast? = some PadAction.fatalError ∧
    PadAction.fatalError ∉ _link_cb .ok ∧
    (∀ r, PadAction.fatalError ∉ _link_gstdepay_cb r) := by
  refine ⟨by decide, by decide, by decide, ?_⟩
  intro r
  cases r <;> decide

/-- C8: a missing positional URI, any positional argument without the
srt:// scheme, or the help flag makes `main` print a diagnostic or the usage
text and return a negative code before the pipeline is ever built. -/
theorem startup_errors_exit_negative (help : Bool) (user resource : Option String)
    (ps : List String)
    (h : help = true ∨ ps = [] ∨ ∃ p ∈ ps, has_srt_scheme p = false) :
    ∃ code printed,
      main_startup help user resource ps = .earlyExit code printed ∧ code < 0 := by
  unfold main_startup
  rcases hpp : parse_positionals { uri := none, user := user, resource := resource } ps
    with ⟨opts, err⟩
  rcases err with _ | e
  · by_cases hcond : (help || opts.uri.isNone) = true
    · refine ⟨-1, ["<usage text>"], ?_, by decide⟩
      simp [hcond]
    · exfalso
      rcases h with h | h | h
      · rw [h] at hcond
        simp at hcond
      · subst h
        have hop : opts = { uri := none, user := user, resource := resource } := by
          have hps : parse_positionals
              { uri := none, user := user, resource := resource } ([] : List String) =
              ({ uri := none, user := user, resource := resource }, none) := rfl
          rw [hps] at hpp
          exact (Prod.mk.injEq _ _ _ _ |>.mp hpp).1.symm
        rw [hop] at hcond
        simp at hcond
      · have hsome := parse_positionals_error_of_invalid ps
          { uri := none, user := user, resource := resource } h
        rw [hpp] at hsome
        simp at hsome
  · exact ⟨-1, [e], rfl, by decide⟩

/-- C8 witness at the malformed positional argument http://h. -/
theorem startup_errors_exit_negative_witness :
    ∃ code printed,
      main_startup false none none ["http://h"] = .earlyExit code printed ∧
        code < 0 :=
  startup_errors_exit_negative false none none ["http://h"]
    (Or.inr (Or.inr ⟨"http://h", by decide, by decide⟩))

/-- C9: end-of-stream and error bus messages are handled identically: both
print "Terminated" and quit the main loop once (any other message does
neither), and after the loop returns `main` tears the pipeline down by
setting its state to NULL, unreffing it and unreffing the loop, and exits
with code 0. -/
theorem eos_error_identical_termination :
    _bus_watch .eos = _bus_watch .error ∧
    (_bus_watch .eos).printed = ["Terminated"] ∧
    (_bus_watch .eos).quitCalls = 1 ∧
    (_bus_watch .eos).sourceContinue = true ∧
    (_bus_watch .other).printed = [] ∧
    (_bus_watch .other).quitCalls = 0 ∧
    main_teardown = [.setStateNull, .unrefPipeline, .unrefLoop] ∧
    main_run_exit_code = 0 := by
  decide

/-- C10: when two positional URIs are supplied and the first is well-formed,
the second is rejected with "URI has already been set." no matter what the
second value is, the stored URI stays the first one, and `main` exits with
-1 before building the pipeline. -/
theorem duplicate_uri_rejected (u1 u2 : String) (user resource : Option String)
    (help : Bool) (h : has_srt_scheme u1 = true) :
    (parse_positionals { uri := none, user := user, resource := resource } [u1, u2]).2 =
      some "URI has already been set." ∧
    (parse_positionals { uri := none, user := user, resource := resource } [u1, u2]).1.uri =
      some u1 ∧
    main_startup help user resource [u1, u2] =
      .earlyExit (-1) ["URI has already been set."] := by
  have hcb1 : _parse_rest_arg_cb { uri := none, user := user, resource := resource } u1 =
      .ok { uri := some u1, user := user, resource := resource } := by
    unfold _parse_rest_arg_cb
    simp [h]
  have hcb2 : _parse_rest_arg_cb { uri := some u1, user := user, resource := resource } u2 =
      .error "URI has already been set." := by
    unfold _parse_rest_arg_cb
    simp
  have hpp : parse_positionals { uri := none, user := user, resource := resource } [u1, u2] =
      ({ uri := some u1, user := user, resource := resource },
        some "URI has already been set.") := by
    unfold parse_positionals
    rw [hcb1]
    unfold parse_positionals
    rw [hcb2]
  refine ⟨by rw [hpp], by rw [hpp], ?_⟩
  unfold main_startup
  rw [hpp]

/-- C10 witness with the two well-formed URIs srt://h and srt://j. -/
theorem duplicate_uri_rejected_witness :
    (parse_positionals { uri := none, user := none, resource := none }
        ["srt://h", "srt://j"]).2 = some "URI has already been set." ∧
    (parse_positionals { uri := none, user := none, resource := none }
        ["srt://h", "srt://j"]).1.uri = some "srt://h" ∧
    main_startup false none none ["srt://h", "srt://j"] =
      .earlyExit (-1) ["URI has already been set."] :=
  duplicate_uri_rejected "srt://h" "srt://j" none none false (by decide)

end RtpOverSrt
